import Mathlib

/-!
# Verification of `adam_fov_rs` (`src/lib.rs`)

A shallow embedding of the recursive symmetric-shadowcasting field-of-view
computation of `adam_fov_rs`.  The Rust code is side-effecting: it reads
opacity through a `tile_blocks_vision` callback and reports visibility through
a `mark_tile_visible` callback.  We embed it with explicit state passing: a
`FovState` records, newest first, the list of points passed to
`mark_tile_visible` (`marked`) and the list of points passed to
`tile_blocks_vision` (`queried`).  The two callbacks are modelled as pure
boolean predicates `inBounds` (for `GridSize::contains_point` of the
caller-supplied `max_bounds`) and `isOpaque` (for `tile_blocks_vision`).

Machine integers (`i32`) are modelled as `Int`; `i32` division truncates
toward zero, which is `Int.tdiv`.  The range test
`Vec2::ZERO.distance((x,y).as_vec2()) <= range as f32` compares the Euclidean
length of the local offset `(x, y)` against `range`; we embed it as the exact
rational comparison `x*x + y*y ≤ range*range` (guarded by `range < 0` exactly
as in the source), which agrees with the `f32` computation on the magnitudes
the loop produces (`0 ≤ y ≤ top_y`, `1 ≤ x ≤ range`, for all ranges far below
`2^11`, where squares and square roots are exactly resolved in `f32`).
`compute_fov` takes `range: usize` and immediately casts it with
`range as i32`; our `compute_fov` takes the post-cast `range : Int`, so that
the negative-range behaviour of the internals is expressible.
-/

/-- An absolute or local grid coordinate (`IVec2` in the source). -/
abbrev Pt : Type := Int × Int

/-- Squared Euclidean distance between two points. -/
def dist2 (a b : Pt) : Int :=
  (b.1 - a.1) * (b.1 - a.1) + (b.2 - a.2) * (b.2 - a.2)

/-- `struct Slope { x: i32, y: i32 }` — the rational slope `y/x`. -/
structure Slope where
  x : Int
  y : Int
deriving Repr, DecidableEq

/-- `Slope::greater`: `self.y * x > self.x * y`, i.e. `self > y/x`. -/
def Slope.greater (s : Slope) (y x : Int) : Bool :=
  s.y * x > s.x * y

/-- `Slope::greater_or_equal`: `self.y * x >= self.x * y`, i.e. `self ≥ y/x`. -/
def Slope.greater_or_equal (s : Slope) (y x : Int) : Bool :=
  s.y * x ≥ s.x * y

/-- `Slope::less_or_equal`: `self.y * x <= self.x * y`, i.e. `self ≤ y/x`. -/
def Slope.less_or_equal (s : Slope) (y x : Int) : Bool :=
  s.y * x ≤ s.x * y

/-- The trace of callback invocations made so far, newest first:
`marked` collects arguments of `mark_tile_visible`, `queried` collects
arguments of `tile_blocks_vision`. -/
structure FovState where
  marked : List Pt
  queried : List Pt
deriving Repr, DecidableEq

/-- The octant `match` of `blocks_light` (lines 231–265): local `(x, y)` to
absolute coordinates; the `_ => {}` arm leaves `origin` unchanged. -/
def blocks_light_transform (octant : Int) (origin : Pt) (x y : Int) : Pt :=
  if octant = 0 then (origin.1 + x, origin.2 - y)
  else if octant = 1 then (origin.1 + y, origin.2 - x)
  else if octant = 2 then (origin.1 - y, origin.2 - x)
  else if octant = 3 then (origin.1 - x, origin.2 - y)
  else if octant = 4 then (origin.1 - x, origin.2 + y)
  else if octant = 5 then (origin.1 - y, origin.2 + x)
  else if octant = 6 then (origin.1 + y, origin.2 + x)
  else if octant = 7 then (origin.1 + x, origin.2 + y)
  else origin

/-- The octant `match` of `set_visible` (lines 371–405). -/
def set_visible_transform (octant : Int) (origin : Pt) (x y : Int) : Pt :=
  if octant = 0 then (origin.1 + x, origin.2 - y)
  else if octant = 1 then (origin.1 + y, origin.2 - x)
  else if octant = 2 then (origin.1 - y, origin.2 - x)
  else if octant = 3 then (origin.1 - x, origin.2 - y)
  else if octant = 4 then (origin.1 - x, origin.2 + y)
  else if octant = 5 then (origin.1 - y, origin.2 + x)
  else if octant = 6 then (origin.1 + y, origin.2 + x)
  else if octant = 7 then (origin.1 + x, origin.2 + y)
  else origin

/-- `blocks_light`: transform the local coordinate, treat out-of-bounds as
opaque without consulting the opacity callback, otherwise query `is_opaque`
(recorded in `queried`). -/
def blocks_light (x y octant : Int) (origin : Pt) (inBounds isOpaque : Pt → Bool)
    (st : FovState) : Bool × FovState :=
  let p := blocks_light_transform octant origin x y
  if !inBounds p then (true, st)
  else (isOpaque p, { st with queried := p :: st.queried })

/-- `set_visible`: transform the local coordinate and mark it visible if it is
in bounds. -/
def set_visible (x y octant : Int) (origin : Pt) (inBounds : Pt → Bool)
    (st : FovState) : FovState :=
  let p := set_visible_transform octant origin x y
  if inBounds p then { st with marked := p :: st.marked } else st

/-- The `top_y` block of `compute_y_coordinate` (lines 183–204): the fast path
when the top slope is exactly `1/1`, otherwise the rounding formula (truncating
`i32` division) with the two one-cell corrections; `&&` short-circuits exactly
as in the source, so opacity queries happen in the same cases. -/
def compute_top_y (octant : Int) (origin : Pt) (x : Int) (top : Slope)
    (inBounds isOpaque : Pt → Bool) (st : FovState) : Int × FovState :=
  if top.x = 1 then (x, st)
  else
    match Int.tdiv ((x * 2 - 1) * top.y + top.x) (top.x * 2) with
    | ty =>
      match blocks_light x ty octant origin inBounds isOpaque st with
      | (b1, st) =>
        if b1 then
          if top.greater_or_equal (ty * 2 + 1) (x * 2) then
            match blocks_light x (ty + 1) octant origin inBounds isOpaque st with
            | (b2, st) => if !b2 then (ty + 1, st) else (ty, st)
          else (ty, st)
        else
          match blocks_light (x + 1) (ty + 1) octant origin inBounds isOpaque st with
          | (b2, st) =>
            if top.greater (ty * 2 + 1) (if b2 then x * 2 + 1 else x * 2) then
              (ty + 1, st)
            else (ty, st)

/-- The `bottom_y` block of `compute_y_coordinate` (lines 206–218). -/
def compute_bottom_y (octant : Int) (origin : Pt) (x : Int) (bottom : Slope)
    (inBounds isOpaque : Pt → Bool) (st : FovState) : Int × FovState :=
  if bottom.y = 0 then (0, st)
  else
    match Int.tdiv ((x * 2 - 1) * bottom.y + bottom.x) (bottom.x * 2) with
    | byv =>
      if bottom.greater_or_equal (byv * 2 + 1) (x * 2) then
        match blocks_light x byv octant origin inBounds isOpaque st with
        | (b1, st) =>
          if b1 then
            match blocks_light x (byv + 1) octant origin inBounds isOpaque st with
            | (b2, st) => if !b2 then (byv + 1, st) else (byv, st)
          else (byv, st)
      else (byv, st)

/-- `compute_y_coordinate` (lines 174–220): the top and bottom boundary rows of
column `x`, with the diagonal-wall corrections.  Returns
`((top_y, bottom_y), st)` (the source packs the two rows in an `IVec2`). -/
def compute_y_coordinate (octant : Int) (origin : Pt) (x : Int)
    (top bottom : Slope) (inBounds isOpaque : Pt → Bool) (st : FovState) :
    (Int × Int) × FovState :=
  match compute_top_y octant origin x top inBounds isOpaque st with
  | (top_y, st) =>
    match compute_bottom_y octant origin x bottom inBounds isOpaque st with
    | (bottom_y, st) => ((top_y, bottom_y), st)

/-- The result of one invocation of `compute_visiblity`: the updated trace, the
final values of the `&mut top` / `&mut bottom` slopes, and the returned
boolean (`false` makes the column loop of `compute_octant` break). -/
structure VisOut where
  st : FovState
  top : Slope
  bottom : Slope
  cont : Bool
deriving Repr

/-- The body of `compute_visiblity`'s `for y in (bottom_y..=top_y).rev()` loop
(lines 289–357), processing `rows` rows starting at row `y` and counting down.
`recurse` stands for the recursive `compute_octant` call at column `x + 1`
(line 324); the caller instantiates it.  `wasOpaque` is the `was_opaque`
tri-state (−1 unknown, 0 transparent, 1 opaque).  When the rows are exhausted
the function returns `was_opaque == 0` as `cont`; the early `return false`
sites yield `cont = false`; the `break` site (line 322) exits with the
narrowed bottom slope and, since `was_opaque == 0` there, `cont = true`. -/
def vis_rows (recurse : Slope → Slope → FovState → FovState)
    (range octant : Int) (origin : Pt) (x : Int)
    (inBounds isOpaque : Pt → Bool) (topY bottomY : Int) :
    Nat → Int → Slope → Slope → Int → FovState → VisOut
  | 0, _, top, bottom, wasOpaque, st => ⟨st, top, bottom, wasOpaque == 0⟩
  | rows + 1, y, top, bottom, wasOpaque, st =>
    if range < 0 ∨ x * x + y * y ≤ range * range then
      let r := blocks_light x y octant origin inBounds isOpaque st
      let isOp := r.1
      let st := r.2
      let isVis := isOp ||
        ((y != topY || top.greater_or_equal y x) &&
         (y != bottomY || bottom.less_or_equal y x))
      let st := if isVis then set_visible x y octant origin inBounds st else st
      if x ≠ range then
        if isOp then
          if wasOpaque == 0 then
            let r2 := blocks_light x (y + 1) octant origin inBounds isOpaque st
            let nx := if r2.1 then x * 2 - 1 else x * 2
            let ny := y * 2 + 1
            let st := r2.2
            if top.greater ny nx then
              if y = bottomY then
                ⟨st, top, ⟨nx, ny⟩, true⟩
              else
                let st := recurse top ⟨nx, ny⟩ st
                vis_rows recurse range octant origin x inBounds isOpaque topY
                  bottomY rows (y - 1) top bottom 1 st
            else
              if y = bottomY then ⟨st, top, bottom, false⟩
              else
                vis_rows recurse range octant origin x inBounds isOpaque topY
                  bottomY rows (y - 1) top bottom 1 st
          else
            vis_rows recurse range octant origin x inBounds isOpaque topY
              bottomY rows (y - 1) top bottom 1 st
        else
          if wasOpaque > 0 then
            let r2 := blocks_light (x + 1) (y + 1) octant origin inBounds isOpaque st
            let nx := if r2.1 then x * 2 + 1 else x * 2
            let ny := y * 2 + 1
            let st := r2.2
            if bottom.greater_or_equal ny nx then ⟨st, top, bottom, false⟩
            else
              vis_rows recurse range octant origin x inBounds isOpaque topY
                bottomY rows (y - 1) ⟨nx, ny⟩ bottom 0 st
          else
            vis_rows recurse range octant origin x inBounds isOpaque topY
              bottomY rows (y - 1) top bottom 0 st
      else
        vis_rows recurse range octant origin x inBounds isOpaque topY
          bottomY rows (y - 1) top bottom wasOpaque st
    else
      vis_rows recurse range octant origin x inBounds isOpaque topY
        bottomY rows (y - 1) top bottom wasOpaque st

/-- `compute_octant` (lines 130–171): the `for x in x..=range` column loop.
Each iteration computes the boundary rows, runs `compute_visiblity` over them
(`vis_rows`, with `recurse` the recursive `compute_octant` at `x + 1`), and
continues at `x + 1` with the updated slopes unless the scan said to break. -/
def compute_octant (octant : Int) (origin : Pt) (range x : Int)
    (top bottom : Slope) (inBounds isOpaque : Pt → Bool) (st : FovState) :
    FovState :=
  if h : x ≤ range then
    let yc := compute_y_coordinate octant origin x top bottom inBounds isOpaque st
    let topY := yc.1.1
    let bottomY := yc.1.2
    let out := vis_rows
      (fun t b s => compute_octant octant origin range (x + 1) t b inBounds isOpaque s)
      range octant origin x inBounds isOpaque topY bottomY
      (topY - bottomY + 1).toNat topY top bottom (-1) yc.2
    if out.cont then
      compute_octant octant origin range (x + 1) out.top out.bottom inBounds
        isOpaque out.st
    else out.st
  else st
termination_by (range + 1 - x).toNat
decreasing_by
  · omega
  · omega

/-- `compute_fov` (lines 104–127): marks the origin (unconditionally, with no
bounds check), then runs the eight octant scans with the initial wedge
`top = 1/1`, `bottom = 1/0`.  `range` is the value of `range as i32`. -/
def compute_fov (origin : Pt) (range : Int) (inBounds isOpaque : Pt → Bool) :
    FovState :=
  let st : FovState := ⟨[origin], []⟩
  (([0, 1, 2, 3, 4, 5, 6, 7] : List Int)).foldl
    (fun st octant =>
      compute_octant octant origin range 1 ⟨1, 1⟩ ⟨1, 0⟩ inBounds isOpaque st)
    st

/-!
## A fuel-indexed variant of the column scan

`compute_octant` is defined by well-founded recursion on `(range + 1 - x).toNat`
(the recursive call of line 324 restarts the column loop at `x + 1` with the
same `range`).  `compute_octant_fuel` is the same computation with an explicit
recursion-depth budget, spending one unit of fuel per column step; it is
structurally recursive, hence directly evaluable.  The equivalence theorem
below shows that the budget `(range + 1 - x).toNat` always suffices, which is
exactly the termination argument of the source recursion. -/
def compute_octant_fuel (fuel : Nat) (octant : Int) (origin : Pt)
    (range x : Int) (top bottom : Slope) (inBounds isOpaque : Pt → Bool)
    (st : FovState) : FovState :=
  match fuel with
  | 0 => st
  | fuel + 1 =>
    if x ≤ range then
      let yc := compute_y_coordinate octant origin x top bottom inBounds isOpaque st
      let topY := yc.1.1
      let bottomY := yc.1.2
      let out := vis_rows
        (fun t b s =>
          compute_octant_fuel fuel octant origin range (x + 1) t b inBounds isOpaque s)
        range octant origin x inBounds isOpaque topY bottomY
        (topY - bottomY + 1).toNat topY top bottom (-1) yc.2
      if out.cont then
        compute_octant_fuel fuel octant origin range (x + 1) out.top out.bottom
          inBounds isOpaque out.st
      else out.st
    else st

/-- `vis_rows` only uses its `recurse` argument by application, so pointwise
equal recursions give equal scans. -/
theorem vis_rows_congr {r1 r2 : Slope → Slope → FovState → FovState}
    (h : ∀ t b s, r1 t b s = r2 t b s) (range octant : Int) (origin : Pt)
    (x : Int) (inBounds isOpaque : Pt → Bool) (topY bottomY : Int) :
    ∀ rows y top bottom wasOpaque st,
      vis_rows r1 range octant origin x inBounds isOpaque topY bottomY
        rows y top bottom wasOpaque st =
      vis_rows r2 range octant origin x inBounds isOpaque topY bottomY
        rows y top bottom wasOpaque st := by
  intro rows
  induction rows with
  | zero => intro y top bottom wasOpaque st; rfl
  | succ n ih =>
    intro y top bottom wasOpaque st
    rw [vis_rows, vis_rows]
    dsimp only
    simp only [h, ih]

/-- Fuel `(range + 1 - x).toNat` suffices: the fuel-indexed scan agrees with
the well-founded one.  This is the termination measure of the recursion: every
spawned frame restarts at `x + 1` with the same `range`. -/
theorem compute_octant_fuel_eq (octant : Int) (origin : Pt)
    (inBounds isOpaque : Pt → Bool) :
    ∀ (fuel : Nat) (range x : Int) (top bottom : Slope) (st : FovState),
      (range + 1 - x).toNat ≤ fuel →
      compute_octant_fuel fuel octant origin range x top bottom inBounds
        isOpaque st =
      compute_octant octant origin range x top bottom inBounds isOpaque st := by
  intro fuel
  induction fuel with
  | zero =>
    intro range x top bottom st h
    rw [compute_octant]
    rw [dif_neg (by omega)]
    rfl
  | succ n ih =>
    intro range x top bottom st h
    rw [compute_octant]
    by_cases hx : x ≤ range
    · rw [dif_pos hx]
      show (if x ≤ range then _ else st) = _
      rw [if_pos hx]
      dsimp only
      have hr : ∀ t b s,
          compute_octant_fuel n octant origin range (x + 1) t b inBounds
            isOpaque s =
          compute_octant octant origin range (x + 1) t b inBounds isOpaque s :=
        fun t b s => ih range (x + 1) t b s (by omega)
      rw [vis_rows_congr hr]
      split
      · rw [hr]
      · rfl
    · rw [dif_neg hx]
      show (if x ≤ range then _ else st) = st
      rw [if_neg hx]

/-- The fuel-indexed top level: eight octants, each with the stated budget. -/
def compute_fov_fuel (fuel : Nat) (origin : Pt) (range : Int)
    (inBounds isOpaque : Pt → Bool) : FovState :=
  let st : FovState := ⟨[origin], []⟩
  (([0, 1, 2, 3, 4, 5, 6, 7] : List Int)).foldl
    (fun st octant =>
      compute_octant_fuel fuel octant origin range 1 ⟨1, 1⟩ ⟨1, 0⟩ inBounds
        isOpaque st)
    st

/-- With fuel at least `range.toNat`, the fuel-indexed top level agrees with
`compute_fov`. -/
theorem compute_fov_fuel_eq (origin : Pt) (range : Int)
    (inBounds isOpaque : Pt → Bool) (fuel : Nat) (h : range.toNat ≤ fuel) :
    compute_fov_fuel fuel origin range inBounds isOpaque =
    compute_fov origin range inBounds isOpaque := by
  unfold compute_fov_fuel compute_fov
  have : ∀ (l : List Int) (st : FovState),
      l.foldl
        (fun st octant =>
          compute_octant_fuel fuel octant origin range 1 ⟨1, 1⟩ ⟨1, 0⟩
            inBounds isOpaque st) st =
      l.foldl
        (fun st octant =>
          compute_octant octant origin range 1 ⟨1, 1⟩ ⟨1, 0⟩ inBounds
            isOpaque st) st := by
    intro l
    induction l with
    | nil => intro st; rfl
    | cons a l ihl =>
      intro st
      rw [List.foldl_cons, List.foldl_cons,
        compute_octant_fuel_eq _ _ _ _ fuel range 1 _ _ _ (by omega), ihl]
  exact this _ _

/-!
## Trace-extension invariants

`GoodExt range inBounds origin st st'` says `st'` extends the traces of `st`
and every point added to `marked` is in bounds and (when `range` is
non-negative) within `range` of `origin`, and every point added to `queried`
is in bounds.  Every primitive step of the algorithm produces such an
extension, the one exception being the unconditional initial origin mark of
`compute_fov` itself. -/
def GoodExt (range : Int) (inBounds : Pt → Bool) (origin : Pt)
    (st st' : FovState) : Prop :=
  (∃ l, st'.marked = l ++ st.marked ∧
    ∀ p ∈ l, inBounds p = true ∧ (0 ≤ range → dist2 origin p ≤ range * range)) ∧
  (∃ l, st'.queried = l ++ st.queried ∧ ∀ p ∈ l, inBounds p = true)

theorem goodExt_refl (range : Int) (inBounds : Pt → Bool) (origin : Pt)
    (st : FovState) : GoodExt range inBounds origin st st :=
  ⟨⟨[], rfl, by simp⟩, ⟨[], rfl, by simp⟩⟩

theorem goodExt_trans {range : Int} {inBounds : Pt → Bool} {origin : Pt}
    {st1 st2 st3 : FovState} (h1 : GoodExt range inBounds origin st1 st2)
    (h2 : GoodExt range inBounds origin st2 st3) :
    GoodExt range inBounds origin st1 st3 := by
  obtain ⟨⟨l1, e1, m1⟩, ⟨q1, f1, n1⟩⟩ := h1
  obtain ⟨⟨l2, e2, m2⟩, ⟨q2, f2, n2⟩⟩ := h2
  refine ⟨⟨l2 ++ l1, ?_, ?_⟩, ⟨q2 ++ q1, ?_, ?_⟩⟩
  · rw [e2, e1, List.append_assoc]
  · intro p hp
    rcases List.mem_append.mp hp with h | h
    · exact m2 p h
    · exact m1 p h
  · rw [f2, f1, List.append_assoc]
  · intro p hp
    rcases List.mem_append.mp hp with h | h
    · exact n2 p h
    · exact n1 p h

/-- The `set_visible` transform moves the origin by `(±x, ±y)` or `(±y, ±x)`,
so the squared distance from the origin is exactly `x² + y²`; the `_ => {}`
arm leaves the origin in place. -/
theorem dist2_set_visible_transform (octant : Int) (origin : Pt) (x y : Int) :
    dist2 origin (set_visible_transform octant origin x y) = x * x + y * y ∨
    set_visible_transform octant origin x y = origin := by
  unfold set_visible_transform
  split_ifs
  all_goals try (right; rfl)
  all_goals (left; simp only [dist2]; ring)

theorem goodExt_blocks_light (range : Int) (origin : Pt) (x y octant : Int)
    (o : Pt) (inBounds isOpaque : Pt → Bool) (st : FovState) :
    GoodExt range inBounds origin st
      (blocks_light x y octant o inBounds isOpaque st).2 := by
  unfold blocks_light
  dsimp only
  split
  · exact goodExt_refl ..
  · rename_i hb
    refine ⟨⟨[], rfl, by simp⟩,
      ⟨[blocks_light_transform octant o x y], rfl, ?_⟩⟩
    intro p hp
    simp only [List.mem_singleton] at hp
    subst hp
    simpa using hb

theorem goodExt_set_visible {range x y : Int} (octant : Int) {origin : Pt}
    (inBounds : Pt → Bool) (st : FovState)
    (hg : range < 0 ∨ x * x + y * y ≤ range * range) :
    GoodExt range inBounds origin st
      (set_visible x y octant origin inBounds st) := by
  unfold set_visible
  dsimp only
  split
  · rename_i hb
    refine ⟨⟨[set_visible_transform octant origin x y], rfl, ?_⟩, ⟨[], rfl, by simp⟩⟩
    intro p hp
    simp only [List.mem_singleton] at hp
    subst hp
    refine ⟨hb, fun hr => ?_⟩
    have hxy : x * x + y * y ≤ range * range := by
      rcases hg with h | h
      · omega
      · exact h
    rcases dist2_set_visible_transform octant origin x y with h | h
    · rw [h]; exact hxy
    · rw [h]
      have : dist2 origin origin = 0 := by simp [dist2]
      rw [this]
      positivity
  · exact goodExt_refl ..

/-- Chaining form of `goodExt_blocks_light`. -/
theorem goodExt_trans_bl {range : Int} {inBounds : Pt → Bool} {origin : Pt}
    {st s : FovState} (x y octant : Int) (o : Pt) (isOpaque : Pt → Bool)
    (h : GoodExt range inBounds origin st s) :
    GoodExt range inBounds origin st
      (blocks_light x y octant o inBounds isOpaque s).2 :=
  goodExt_trans h (goodExt_blocks_light ..)

theorem goodExt_compute_top_y (range : Int) (origin : Pt) (octant : Int)
    (o : Pt) (x : Int) (top : Slope) (inBounds isOpaque : Pt → Bool)
    (st : FovState) :
    GoodExt range inBounds origin st
      (compute_top_y octant o x top inBounds isOpaque st).2 := by
  unfold compute_top_y
  simp only [apply_ite Prod.snd]
  repeat' split
  all_goals solve_by_elim [goodExt_refl, goodExt_trans_bl]

theorem goodExt_compute_bottom_y (range : Int) (origin : Pt) (octant : Int)
    (o : Pt) (x : Int) (bottom : Slope) (inBounds isOpaque : Pt → Bool)
    (st : FovState) :
    GoodExt range inBounds origin st
      (compute_bottom_y octant o x bottom inBounds isOpaque st).2 := by
  unfold compute_bottom_y
  simp only [apply_ite Prod.snd]
  repeat' split
  all_goals solve_by_elim [goodExt_refl, goodExt_trans_bl]

theorem goodExt_compute_y (range : Int) (origin : Pt) (octant : Int) (o : Pt)
    (x : Int) (top bottom : Slope) (inBounds isOpaque : Pt → Bool)
    (st : FovState) :
    GoodExt range inBounds origin st
      (compute_y_coordinate octant o x top bottom inBounds isOpaque st).2 := by
  have h1 := goodExt_compute_top_y range origin octant o x top inBounds isOpaque st
  have h2 := goodExt_compute_bottom_y range origin octant o x bottom inBounds
    isOpaque (compute_top_y octant o x top inBounds isOpaque st).2
  exact goodExt_trans h1 h2

set_option maxHeartbeats 4000000 in
theorem goodExt_vis_rows (range octant : Int) (origin : Pt) (x : Int)
    (inBounds isOpaque : Pt → Bool) (topY bottomY : Int)
    (recurse : Slope → Slope → FovState → FovState)
    (Hrec : ∀ t b s, GoodExt range inBounds origin s (recurse t b s)) :
    ∀ (rows : Nat) (y : Int) (top bottom : Slope) (wasOpaque : Int)
      (st : FovState),
      GoodExt range inBounds origin st
        (vis_rows recurse range octant origin x inBounds isOpaque topY bottomY
          rows y top bottom wasOpaque st).st := by
  intro rows
  induction rows with
  | zero =>
    intro y top bottom wasOpaque st
    exact goodExt_refl ..
  | succ n ih =>
    intro y top bottom wasOpaque st
    rw [vis_rows]
    dsimp only
    split
    · rename_i hg
      have hbl : ∀ (a b : Int) (s : FovState),
          GoodExt range inBounds origin st s →
          GoodExt range inBounds origin st
            (blocks_light a b octant origin inBounds isOpaque s).2 :=
        fun a b s h => goodExt_trans h (goodExt_blocks_light ..)
      have hsv : ∀ (s : FovState),
          GoodExt range inBounds origin st s →
          GoodExt range inBounds origin st
            (set_visible x y octant origin inBounds s) :=
        fun s h => goodExt_trans h (goodExt_set_visible octant inBounds s hg)
      have hrec : ∀ (t b : Slope) (s : FovState),
          GoodExt range inBounds origin st s →
          GoodExt range inBounds origin st (recurse t b s) :=
        fun t b s h => goodExt_trans h (Hrec t b s)
      have ihc : ∀ (y' : Int) (t b : Slope) (w : Int) (s : FovState),
          GoodExt range inBounds origin st s →
          GoodExt range inBounds origin st
            (vis_rows recurse range octant origin x inBounds isOpaque topY
              bottomY n y' t b w s).st :=
        fun y' t b w s h => goodExt_trans h (ih y' t b w s)
      simp only [apply_ite VisOut.st]
      repeat' split
      all_goals try solve_by_elim [goodExt_refl, hbl, hsv, hrec, ihc]
      all_goals
        exact ihc _ _ _ _ _
          (hrec _ _ _ (hbl _ _ _ (hsv _ (hbl _ _ _ (goodExt_refl ..)))))
    · exact ih ..

theorem goodExt_compute_octant (octant : Int) (origin : Pt)
    (inBounds isOpaque : Pt → Bool) :
    ∀ (n : Nat) (range x : Int) (top bottom : Slope) (st : FovState),
      (range + 1 - x).toNat ≤ n →
      GoodExt range inBounds origin st
        (compute_octant octant origin range x top bottom inBounds isOpaque st) := by
  intro n
  induction n with
  | zero =>
    intro range x top bottom st h
    rw [compute_octant, dif_neg (by omega)]
    exact goodExt_refl ..
  | succ n ih =>
    intro range x top bottom st h
    rw [compute_octant]
    by_cases hx : x ≤ range
    · rw [dif_pos hx]
      dsimp only
      have Hrec : ∀ t b s, GoodExt range inBounds origin s
          (compute_octant octant origin range (x + 1) t b inBounds isOpaque s) :=
        fun t b s => ih range (x + 1) t b s (by omega)
      have h1 := goodExt_compute_y range origin octant origin x top bottom
        inBounds isOpaque st
      have h2 := goodExt_vis_rows range octant origin x inBounds isOpaque
        (compute_y_coordinate octant origin x top bottom inBounds isOpaque st).1.1
        (compute_y_coordinate octant origin x top bottom inBounds isOpaque st).1.2
        _ Hrec
        ((compute_y_coordinate octant origin x top bottom inBounds isOpaque st).1.1 -
          (compute_y_coordinate octant origin x top bottom inBounds isOpaque st).1.2 + 1).toNat
        (compute_y_coordinate octant origin x top bottom inBounds isOpaque st).1.1
        top bottom (-1)
        (compute_y_coordinate octant origin x top bottom inBounds isOpaque st).2
      split
      · exact goodExt_trans (goodExt_trans h1 h2) (Hrec _ _ _)
      · exact goodExt_trans h1 h2
    · rw [dif_neg hx]
      exact goodExt_refl ..

theorem goodExt_compute_fov (origin : Pt) (range : Int)
    (inBounds isOpaque : Pt → Bool) :
    GoodExt range inBounds origin ⟨[origin], []⟩
      (compute_fov origin range inBounds isOpaque) := by
  unfold compute_fov
  have : ∀ (l : List Int) (st : FovState),
      GoodExt range inBounds origin st
        (l.foldl
          (fun st octant =>
            compute_octant octant origin range 1 ⟨1, 1⟩ ⟨1, 0⟩ inBounds
              isOpaque st) st) := by
    intro l
    induction l with
    | nil => intro st; exact goodExt_refl ..
    | cons a l ihl =>
      intro st
      rw [List.foldl_cons]
      exact goodExt_trans
        (goodExt_compute_octant a origin inBounds isOpaque
          (range + 1 - 1).toNat range 1 ⟨1, 1⟩ ⟨1, 0⟩ st (by omega))
        (ihl _)
  exact this _ _

/-!
## Concrete map adapters

Rectangular bounds (the semantics of `GridSize::contains_point` for a
`[width, height]` grid) and list-backed opacity callbacks, used by the
concrete scenarios below. -/
def rect_bounds (w h : Int) : Pt → Bool := fun p =>
  0 ≤ p.1 && p.1 < w && 0 ≤ p.2 && p.2 < h

def opaque_list (l : List Pt) : Pt → Bool := fun p => l.contains p

def no_blockers : Pt → Bool := fun _ => false

/-- Blockers at relative offsets `(0, 1)` and `(1, 0)` from origin `(6, 6)`. -/
def two_blockers : Pt → Bool := opaque_list [(6, 7), (7, 6)]

def blockers_one : Pt → Bool := opaque_list [(1, 1)]

def blockers_two : Pt → Bool := opaque_list [(0, 0), (1, 1)]

/-!
## The claims
-/

set_option maxRecDepth 8000 in
/-- C2: on a 13×13 all-transparent grid with exactly two opaque cells at
relative offsets `(0, 1)` and `(1, 0)` from the origin `(6, 6)`, `compute_fov`
with range 5 marks the origin visible, marks both blockers visible, and marks
neither `(6, 8)` (relative `(0, 2)`) nor `(8, 6)` (relative `(2, 0)`)
visible. -/
theorem shadow_completeness_scenario :
    ((6, 6) : Pt) ∈ (compute_fov (6, 6) 5 (rect_bounds 13 13) two_blockers).marked ∧
    ((6, 7) : Pt) ∈ (compute_fov (6, 6) 5 (rect_bounds 13 13) two_blockers).marked ∧
    ((7, 6) : Pt) ∈ (compute_fov (6, 6) 5 (rect_bounds 13 13) two_blockers).marked ∧
    ((6, 8) : Pt) ∉ (compute_fov (6, 6) 5 (rect_bounds 13 13) two_blockers).marked ∧
    ((8, 6) : Pt) ∉ (compute_fov (6, 6) 5 (rect_bounds 13 13) two_blockers).marked := by
  have he := compute_fov_fuel_eq (6, 6) 5 (rect_bounds 13 13) two_blockers 5
    (by decide)
  rw [← he]
  decide

/-- C3 (counterexample): the claim that `mark_tile_visible` is never invoked
out of bounds, "in particular even when the origin itself is out of bounds",
is false: `compute_fov` marks the origin unconditionally (line 112 precedes
any bounds check), so with origin `(5, 5)` and a 1×1 grid the single mark is
out of bounds. -/
theorem origin_mark_escapes_bounds :
    (compute_fov (5, 5) 0 (rect_bounds 1 1) no_blockers).marked = [(5, 5)] ∧
    rect_bounds 1 1 ((5, 5) : Pt) = false := by
  have he := compute_fov_fuel_eq (5, 5) 0 (rect_bounds 1 1) no_blockers 0
    (by decide)
  refine ⟨?_, by decide⟩
  rw [← he]
  decide

/-- C3 (amended): every cell passed to `mark_tile_visible`, except the
unconditional initial mark of the origin itself, is within bounds, and every
cell passed to `tile_blocks_vision` is within bounds. -/
theorem bounds_safety_except_origin (origin : Pt) (range : Int)
    (inBounds isOpaque : Pt → Bool) (p : Pt) :
    (p ∈ (compute_fov origin range inBounds isOpaque).marked →
      p = origin ∨ inBounds p = true) ∧
    (p ∈ (compute_fov origin range inBounds isOpaque).queried →
      inBounds p = true) := by
  obtain ⟨⟨l, hl, hm⟩, ⟨q, hq, hn⟩⟩ :=
    goodExt_compute_fov origin range inBounds isOpaque
  constructor
  · intro hp
    rw [hl] at hp
    rcases List.mem_append.mp hp with h | h
    · exact Or.inr (hm p h).1
    · exact Or.inl (by simpa using h)
  · intro hp
    rw [hq] at hp
    rcases List.mem_append.mp hp with h | h
    · exact hn p h
    · simp at h

set_option maxRecDepth 8000 in
/-- Witness for `bounds_safety_except_origin` at a concrete input: in the C2
scenario the mark of the blocker `(6, 7)` is accounted for. -/
theorem bounds_safety_except_origin_witness :
    ((6, 7) : Pt) ∈ (compute_fov (6, 6) 5 (rect_bounds 13 13) two_blockers).marked ∧
    (((6, 7) : Pt) = (6, 6) ∨ rect_bounds 13 13 ((6, 7) : Pt) = true) := by
  have he := compute_fov_fuel_eq (6, 6) 5 (rect_bounds 13 13) two_blockers 5
    (by decide)
  have hp : ((6, 7) : Pt) ∈
      (compute_fov (6, 6) 5 (rect_bounds 13 13) two_blockers).marked := by
    rw [← he]; decide
  exact ⟨hp,
    (bounds_safety_except_origin (6, 6) 5 (rect_bounds 13 13) two_blockers
      (6, 7)).1 hp⟩

/-- C5: `compute_fov` always invokes `mark_tile_visible` on the origin,
whatever the origin, range (including 0 and negatives) and callbacks. -/
theorem origin_always_marked (origin : Pt) (range : Int)
    (inBounds isOpaque : Pt → Bool) :
    origin ∈ (compute_fov origin range inBounds isOpaque).marked := by
  obtain ⟨⟨l, hl, _⟩, _⟩ := goodExt_compute_fov origin range inBounds isOpaque
  rw [hl]
  simp

/-- C6: with a non-negative range, every cell ever passed to
`mark_tile_visible` (the origin included) lies within Euclidean distance
`range` of the origin, stated with exact squares: `dist2 ≤ range²`.  In
particular no cell other than the origin farther than `range` is ever
marked. -/
theorem range_cutoff (origin : Pt) (range : Int) (inBounds isOpaque : Pt → Bool)
    (p : Pt) (hr : 0 ≤ range)
    (hp : p ∈ (compute_fov origin range inBounds isOpaque).marked) :
    dist2 origin p ≤ range * range := by
  obtain ⟨⟨l, hl, hm⟩, _⟩ := goodExt_compute_fov origin range inBounds isOpaque
  rw [hl] at hp
  rcases List.mem_append.mp hp with h | h
  · exact (hm p h).2 hr
  · have hpo : p = origin := by simpa using h
    subst hpo
    have hz : dist2 p p = 0 := by simp [dist2]
    rw [hz]
    positivity

/-- Witness for `range_cutoff` at a concrete input. -/
theorem range_cutoff_witness :
    (0 : Int) ≤ 1 ∧
    ((1, 2) : Pt) ∈ (compute_fov (1, 1) 1 (rect_bounds 3 3) no_blockers).marked ∧
    dist2 (1, 1) ((1, 2) : Pt) ≤ 1 * 1 := by
  have he := compute_fov_fuel_eq (1, 1) 1 (rect_bounds 3 3) no_blockers 1
    (by decide)
  have hp : ((1, 2) : Pt) ∈
      (compute_fov (1, 1) 1 (rect_bounds 3 3) no_blockers).marked := by
    rw [← he]; decide
  exact ⟨by decide, hp,
    range_cutoff (1, 1) 1 (rect_bounds 3 3) no_blockers (1, 2) (by decide) hp⟩

/-- C4 (counterexample): a row outside the range is not "still evaluated for
opacity": the whole loop body, including the opacity query and the
transition/slope bookkeeping, sits inside the range check (line 290).  On an
all-transparent 6×6 grid from origin `(0, 0)` with range 2, the octant-7
column `x = 2` spans rows `2..0`; its in-range row produces the query at
`(2, 0)`, but the out-of-range row 2 produces no query at the in-bounds cell
`(2, 2)`. -/
theorem out_of_range_row_not_queried :
    rect_bounds 6 6 ((2, 2) : Pt) = true ∧
    ((2, 0) : Pt) ∈ (compute_fov (0, 0) 2 (rect_bounds 6 6) no_blockers).queried ∧
    ((2, 2) : Pt) ∉ (compute_fov (0, 0) 2 (rect_bounds 6 6) no_blockers).queried := by
  have he := compute_fov_fuel_eq (0, 0) 2 (rect_bounds 6 6) no_blockers 2
    (by decide)
  refine ⟨by decide, ?_, ?_⟩ <;> rw [← he] <;> decide

/-- C4 (amended): a row whose squared Euclidean distance from the local origin
exceeds `range²` (with `range ≥ 0`) is skipped entirely by the column scan:
no opacity query, no visibility mark, and no change to the slopes or to the
`was_opaque` transition state — the loop moves straight to the next row. -/
theorem out_of_range_row_skipped
    (recurse : Slope → Slope → FovState → FovState) (range octant : Int)
    (origin : Pt) (x : Int) (inBounds isOpaque : Pt → Bool)
    (topY bottomY : Int) (rows : Nat) (y : Int) (top bottom : Slope)
    (wasOpaque : Int) (st : FovState)
    (h : ¬(range < 0 ∨ x * x + y * y ≤ range * range)) :
    vis_rows recurse range octant origin x inBounds isOpaque topY bottomY
      (rows + 1) y top bottom wasOpaque st =
    vis_rows recurse range octant origin x inBounds isOpaque topY bottomY
      rows (y - 1) top bottom wasOpaque st := by
  rw [vis_rows]
  dsimp only
  rw [if_neg h]

/-- Witness for `out_of_range_row_skipped` at a concrete input (column 2,
row 2, range 2: squared distance 8 > 4). -/
theorem out_of_range_row_skipped_witness :
    ¬((2 : Int) < 0 ∨ 2 * 2 + 2 * 2 ≤ 2 * 2) ∧
    vis_rows (fun _ _ s => s) 2 7 (0, 0) 2 (rect_bounds 6 6) no_blockers 2 0
      1 2 ⟨1, 1⟩ ⟨1, 0⟩ (-1) ⟨[], []⟩ =
    vis_rows (fun _ _ s => s) 2 7 (0, 0) 2 (rect_bounds 6 6) no_blockers 2 0
      0 1 ⟨1, 1⟩ ⟨1, 0⟩ (-1) ⟨[], []⟩ :=
  ⟨by decide,
    out_of_range_row_skipped (fun _ _ s => s) 2 7 (0, 0) 2 (rect_bounds 6 6)
      no_blockers 2 0 0 2 ⟨1, 1⟩ ⟨1, 0⟩ (-1) ⟨[], []⟩ (by decide)⟩

/-- C7 (counterexample): making one additional cell opaque can make a cell
visible that was not visible before.  Base blockers `{(1, 1)}` on a 7×7 grid,
origin `(3, 3)`, range 5: the transparent cell `(0, 0)` is hidden behind
`(1, 1)`; adding a blocker at `(0, 0)` (all other opacity unchanged) makes
`(0, 0)` itself visible. -/
theorem added_blocker_increases_visibility :
    blockers_one ((0, 0) : Pt) = false ∧
    ((0, 0) : Pt) ∉ (compute_fov (3, 3) 5 (rect_bounds 7 7) blockers_one).marked ∧
    ((0, 0) : Pt) ∈ (compute_fov (3, 3) 5 (rect_bounds 7 7) blockers_two).marked := by
  have h1 := compute_fov_fuel_eq (3, 3) 5 (rect_bounds 7 7) blockers_one 5
    (by decide)
  have h2 := compute_fov_fuel_eq (3, 3) 5 (rect_bounds 7 7) blockers_two 5
    (by decide)
  refine ⟨by decide, ?_, ?_⟩
  · rw [← h1]; decide
  · rw [← h2]; decide

/-- C7 (amended): visibility is not monotonically non-increasing under added
blockers; an opaque cell is marked visible whenever the scan reaches it, so
the added blocker itself can enter the visible set.  In the exhibited
scenario the added blocker `(0, 0)` is the only newly visible cell. -/
theorem added_blocker_self_reveal :
    ((compute_fov (3, 3) 5 (rect_bounds 7 7) blockers_two).marked.all
      fun q =>
        (compute_fov (3, 3) 5 (rect_bounds 7 7) blockers_one).marked.contains q
          || q == (0, 0)) = true ∧
    ((0, 0) : Pt) ∈ (compute_fov (3, 3) 5 (rect_bounds 7 7) blockers_two).marked ∧
    blockers_two ((0, 0) : Pt) = true := by
  have h1 := compute_fov_fuel_eq (3, 3) 5 (rect_bounds 7 7) blockers_one 5
    (by decide)
  have h2 := compute_fov_fuel_eq (3, 3) 5 (rect_bounds 7 7) blockers_two 5
    (by decide)
  refine ⟨?_, ?_, by decide⟩
  · rw [← h1, ← h2]; decide
  · rw [← h2]; decide

/-- C8 (counterexample): a negative range is not "treated as unbounded": on an
all-transparent 3×3 grid from origin `(1, 1)`, range −1 marks only the origin,
while any large finite range (here 5) also marks `(1, 2)`. -/
theorem negative_range_not_unbounded :
    (compute_fov (1, 1) (-1) (rect_bounds 3 3) no_blockers).marked = [(1, 1)] ∧
    ((1, 2) : Pt) ∈ (compute_fov (1, 1) 5 (rect_bounds 3 3) no_blockers).marked ∧
    ((1, 2) : Pt) ∉ (compute_fov (1, 1) (-1) (rect_bounds 3 3) no_blockers).marked := by
  have h1 := compute_fov_fuel_eq (1, 1) (-1) (rect_bounds 3 3) no_blockers 0
    (by decide)
  have h2 := compute_fov_fuel_eq (1, 1) 5 (rect_bounds 3 3) no_blockers 5
    (by decide)
  refine ⟨?_, ?_, ?_⟩
  · rw [← h1]; decide
  · rw [← h2]; decide
  · rw [← h1]; decide

/-- C8 (amended): a negative range does skip the distance cutoff, but the
column loop `for x in x..=range` is then empty, so every octant scan does
nothing and `compute_fov` produces exactly the unconditional origin mark and
no opacity queries. -/
theorem negative_range_only_origin (origin : Pt) (range : Int)
    (inBounds isOpaque : Pt → Bool) (h : range < 0) :
    compute_fov origin range inBounds isOpaque = ⟨[origin], []⟩ := by
  have hoct : ∀ (oct : Int) (st : FovState),
      compute_octant oct origin range 1 ⟨1, 1⟩ ⟨1, 0⟩ inBounds isOpaque st = st := by
    intro oct st
    rw [compute_octant, dif_neg (by omega)]
  unfold compute_fov
  simp only [List.foldl_cons, List.foldl_nil, hoct]

/-- Witness for `negative_range_only_origin` at range −1 (the value of
`usize::MAX as i32` would be −1 as well). -/
theorem negative_range_only_origin_witness :
    (-1 : Int) < 0 ∧
    compute_fov (1, 1) (-1) (rect_bounds 3 3) no_blockers = ⟨[(1, 1)], []⟩ :=
  ⟨by decide,
    negative_range_only_origin (1, 1) (-1) (rect_bounds 3 3) no_blockers
      (by decide)⟩

/-- C9: the local-to-absolute transform applied before the opacity query
(`blocks_light`, lines 231–265) is identical to the transform applied before
the mark-visible call (`set_visible`, lines 371–405), for every octant label
(0–7 and the default arm alike) and every local coordinate pair. -/
theorem transforms_agree (octant : Int) (origin : Pt) (x y : Int) :
    blocks_light_transform octant origin x y =
      set_visible_transform octant origin x y := rfl

/-- C10: the column scan terminates: the recursion spawned by
`compute_visiblity` restarts the loop at `x + 1` with the same `range`, so the
measure `range + 1 - x` strictly decreases, and a fuel budget of
`(range + 1 - x).toNat` always suffices for the fuel-indexed scan to agree
with the (terminating, well-founded) `compute_octant`. -/
theorem octant_scan_terminates (octant : Int) (origin : Pt)
    (inBounds isOpaque : Pt → Bool) (fuel : Nat) (range x : Int)
    (top bottom : Slope) (st : FovState)
    (h : (range + 1 - x).toNat ≤ fuel) :
    compute_octant_fuel fuel octant origin range x top bottom inBounds
      isOpaque st =
    compute_octant octant origin range x top bottom inBounds isOpaque st :=
  compute_octant_fuel_eq octant origin inBounds isOpaque fuel range x top
    bottom st h

/-- Witness for `octant_scan_terminates` at a concrete input. -/
theorem octant_scan_terminates_witness :
    ((2 : Int) + 1 - 1).toNat ≤ 5 ∧
    compute_octant_fuel 5 0 (3, 3) 2 1 ⟨1, 1⟩ ⟨1, 0⟩ (rect_bounds 7 7)
      no_blockers ⟨[], []⟩ =
    compute_octant 0 (3, 3) 2 1 ⟨1, 1⟩ ⟨1, 0⟩ (rect_bounds 7 7) no_blockers
      ⟨[], []⟩ :=
  ⟨by decide,
    octant_scan_terminates 0 (3, 3) (rect_bounds 7 7) no_blockers 5 2 1
      ⟨1, 1⟩ ⟨1, 0⟩ ⟨[], []⟩ (by decide)⟩
